import Mathlib

/-!
Verification of the AI-as-a-Lookup-Table generator (`AIaaLT.py`).

The Python source is shallowly embedded below: each Python function of the
pipeline (`parse_range_spec`, `load_notes`, `parse_dart_function`,
`create_function`, `generate_tables`, `_write_table_file`) becomes an
executable Lean definition over `Int` / `List` / `String`, with the host
runtime's behaviour (Python `range`, `str.split`, `str.strip`, `int()`,
`str.replace`, `re.sub`, file access, `eval` on the emitted lambda
fragment) modelled by explicit executable functions.  Fallible code is
modelled with `Except`/`Option`; the file system is an explicit
`String → Option String` map.
-/

namespace AIaaLT

/-! ### Python `range` -/

/-- Iteration of Python `range` with a positive step: emit `cur` while
`cur < stop`, advancing by `step`.  `fuel` bounds the recursion; it is
always called with fuel at least `(stop - cur).toNat`, which suffices
because each emitted element advances `cur` by `step ≥ 1`. -/
def upAux : Nat → Int → Int → Int → List Int
  | 0, _, _, _ => []
  | fuel + 1, cur, stop, step =>
    if cur < stop then cur :: upAux fuel (cur + step) stop step else []

/-- Iteration of Python `range` with a negative step: emit `cur` while
`cur > stop`. -/
def downAux : Nat → Int → Int → Int → List Int
  | 0, _, _, _ => []
  | fuel + 1, cur, stop, step =>
    if stop < cur then cur :: downAux fuel (cur + step) stop step else []

/-- The value sequence of Python `range(start, stop, step)` for `step ≠ 0`
(for `step = 0` Python's constructor raises; that case is handled by
`mkRange` below and this function returns `[]`). -/
def pyRange (start stop step : Int) : List Int :=
  if 0 < step then upAux (stop - start).toNat start stop step
  else if step < 0 then downAux (start - stop).toNat start stop step
  else []

/-- Python `range(start, stop + step, step)` as built by
`parse_range_spec` (line 101 of the source: `+step` to include the stop
value).  A zero step raises `ValueError` inside the `try` block, exactly
as Python's `range` constructor does. -/
def mkRange (start stop step : Int) : Except String (List Int) :=
  if step = 0 then Except.error ("range() arg 3 must not be zero")
  else Except.ok (pyRange start (stop + step) step)

/-! ### Python string primitives used by the source -/

/-- Python whitespace characters recognised by `str.strip()` (ASCII part). -/
def isPySpace (c : Char) : Bool :=
  c == ' ' || c == '\t' || c == '\n' || c == '\x0d' || c == '\x0b' || c == '\x0c'

/-- Python `str.strip()` on a character list. -/
def stripList (cs : List Char) : List Char :=
  ((cs.dropWhile isPySpace).reverse.dropWhile isPySpace).reverse

/-- Python `str.strip()`. -/
def pyStrip (s : String) : String := String.mk (stripList s.data)

/-- Python `str.endswith(suf)`. -/
def endswith (s suf : String) : Bool := suf.data.isSuffixOf s.data

/-- Python `str.split(sep)` for a single-character separator. -/
def splitOnChar (sep : Char) : List Char → List (List Char)
  | [] => [[]]
  | c :: rest =>
    let r := splitOnChar sep rest
    if c == sep then [] :: r
    else
      match r with
      | [] => [[c]]
      | h :: t => (c :: h) :: t

/-- Digits of a decimal literal folded into a `Nat`; `none` unless the
list is non-empty and all digits. -/
def digitsToNat (cs : List Char) : Option Nat :=
  if cs.isEmpty then none
  else if cs.all Char.isDigit then
    some (cs.foldl (fun a c => a * 10 + (c.toNat - 48)) 0)
  else none

/-- Python `int()` on an optionally signed decimal literal with optional
surrounding whitespace (underscore digit grouping is not modelled). -/
def pyInt (cs : List Char) : Option Int :=
  let t := stripList cs
  match t with
  | '-' :: rest => (digitsToNat rest).map (fun n => -(n : Int))
  | '+' :: rest => (digitsToNat rest).map (fun n => (n : Int))
  | _ => (digitsToNat t).map (fun n => (n : Int))

/-! ### `parse_range_spec` (source lines 90–103) -/

/-- Model of `parse_range_spec`: split on `:`, require exactly four fields, convert
the numeric fields with `int()`, and build `range(start, stop + step, step)`.
Any `ValueError` raised inside the `try` (non-integer field, or the zero-step
error from the `range` constructor) is re-raised with the
`Invalid numeric values` message. -/
def parse_range_spec (spec : String) : Except String (String × List Int) :=
  let parts := splitOnChar ':' spec.data
  if parts.length ≠ 4 then
    Except.error ("Range spec must have format 'name:start:stop:step', got: " ++ spec)
  else
    let name := String.mk (parts.getD 0 [])
    match pyInt (parts.getD 1 []), pyInt (parts.getD 2 []), pyInt (parts.getD 3 []) with
    | some start, some stop, some step =>
      match mkRange start stop step with
      | Except.ok vs => Except.ok (name, vs)
      | Except.error e =>
        Except.error ("Invalid numeric values in range spec '" ++ spec ++ "': " ++ e)
    | _, _, _ =>
      Except.error ("Invalid numeric values in range spec '" ++ spec ++
        "': invalid literal for int() with base 10")

/-! ### `load_notes` (source lines 106–117)

The file system is modelled as a map from path to optional contents. -/

/-- Model of `load_notes`: strip the input; if the stripped string ends in `.md`,
return that file's contents (raising `FileNotFoundError` naming the file
when it is missing); otherwise return the stripped string. -/
def load_notes (fs : String → Option String) (notes_input : String) : Except String String :=
  let s := pyStrip notes_input
  if endswith s (".md") then
    match fs s with
    | some content => Except.ok content
    | none => Except.error ("Notes file not found: " ++ s)
  else Except.ok s

/-! ### `_write_table_file` and `generate_tables` (source lines 120–194) -/

/-- The argument list built for one grid cell (source lines 180–187):
`[first_val, row_val, col_val]` in the 3-dimension case,
`[row_val, col_val]` in the 2-dimension case. -/
def mkArgs (first : Option (Int × String)) (row_val col_val : Int) : List Int :=
  match first with
  | some (fv, _) => [fv, row_val, col_val]
  | none => [row_val, col_val]

/-- The diagnostic argument string (source lines 183 and 187), naming each
dimension with its value. -/
def argStr (first : Option (Int × String)) (row_name col_name : String)
    (row_val col_val : Int) : String :=
  match first with
  | some (fv, fn) =>
      fn ++ "=" ++ toString fv ++ ", " ++ row_name ++ "=" ++ toString row_val ++
        ", " ++ col_name ++ "=" ++ toString col_val
  | none =>
      row_name ++ "=" ++ toString row_val ++ ", " ++ col_name ++ "=" ++ toString col_val

/-- The warning printed for a failed cell evaluation (source line 193). -/
def warnMsg (first : Option (Int × String)) (row_name col_name : String)
    (row_val col_val : Int) (e : String) : String :=
  "Warning: Error calculating function(" ++ argStr first row_name col_name row_val col_val ++
    "): " ++ e

/-- The text written for one cell: the function result, or the `ERROR`
sentinel when evaluation raised (source lines 189–192). -/
def cellText (func : List Int → Except String String) (args : List Int) : String :=
  match func args with
  | Except.ok r => r
  | Except.error _ => "ERROR"

/-- The warnings emitted while evaluating one cell (source line 193). -/
def cellWarn (func : List Int → Except String String) (first : Option (Int × String))
    (row_name col_name : String) (row_val col_val : Int) : List String :=
  match func (mkArgs first row_val col_val) with
  | Except.ok _ => []
  | Except.error e => [warnMsg first row_name col_name row_val col_val e]

/-- The structured content of one generated Markdown document. -/
structure TableDoc where
  filename : String
  title : String
  notes : String
  headerLabel : String
  colVals : List Int
  rows : List (Int × List String)
  warnings : List String
  deriving Repr, DecidableEq

/-- Model of `_write_table_file`: the header line indexes the first character of the
row and column names (source line 163, `row_name[0]` / `col_name[0]`); an
empty name raises `IndexError` there, outside the per-cell `try`, so it is
fatal.  Otherwise the document is built row by row in range order, each
cell holding the function value or the `ERROR` sentinel, with a warning
per failed cell. -/
def write_table_file (filename title notes row_name : String) (row_range : List Int)
    (col_name : String) (col_range : List Int)
    (func : List Int → Except String String) (first : Option (Int × String)) :
    Except String TableDoc :=
  match row_name.data with
  | [] => Except.error ("string index out of range")
  | r0 :: _ =>
    match col_name.data with
    | [] => Except.error ("string index out of range")
    | c0 :: _ =>
      Except.ok
        { filename := filename
          title := title
          notes := notes
          headerLabel := "| ↓" ++ String.mk [r0] ++ ", " ++ String.mk [c0] ++ "→ |"
          colVals := col_range
          rows := row_range.map (fun r =>
            (r, col_range.map (fun c => cellText func (mkArgs first r c))))
          warnings := row_range.flatMap (fun r =>
            col_range.flatMap (fun c => cellWarn func first row_name col_name r c)) }

/-- The exact file text of a document, following the write sequence of
`_write_table_file` (source lines 156–194). -/
def render (d : TableDoc) : String :=
  "# " ++ d.title ++ "\n\n" ++
  (if d.notes = "" then ("") else d.notes ++ "\n\n") ++
  d.headerLabel ++ String.join (d.colVals.map (fun v => " " ++ toString v ++ " |")) ++ "\n" ++
  "|" ++ String.mk (List.replicate 20 '-') ++ "|" ++
    String.join (d.colVals.map (fun _ => " --- |")) ++ "\n" ++
  String.join (d.rows.map (fun rc =>
    "| " ++ toString rc.1 ++ " |" ++
      String.join (rc.2.map (fun s => " " ++ s ++ " |")) ++ "\n"))

/-- Python `f"{v:03d}"`: decimal text zero-padded to total width 3, the
sign counting toward the width. -/
def pad3 (v : Int) : String :=
  let digits := toString v.natAbs
  let sign := if v < 0 then ("-") else ("")
  if 3 ≤ sign.length + digits.length then sign ++ digits
  else sign ++ String.mk (List.replicate (3 - (sign.length + digits.length)) '0') ++ digits

/-- The sequential 3-dimension loop of `generate_tables` (source lines
139–144): one document per outer value, aborting on the first raised
error. -/
def genLoop (writeOne : Int → Except String TableDoc) : List Int → Except String (List TableDoc)
  | [] => Except.ok []
  | v :: vs => do
    let d ← writeOne v
    let ds ← genLoop writeOne vs
    pure (d :: ds)

/-- Model of `generate_tables`: 2 ranges give one document named
`<row-name>2<col-name>.md`; 3 ranges give one document per outer value,
named `<outer-name>_<value zero-padded to 3>.md` with the outer value in
the title; any other count raises the dimension error before any document
is built. -/
def generate_tables (output_dir title : String)
    (ranges_data : List (String × List Int))
    (func : List Int → Except String String) (notes : String) :
    Except String (List TableDoc) :=
  match ranges_data with
  | [(row_name, row_range), (col_name, col_range)] => do
    let d ← write_table_file (output_dir ++ "/" ++ row_name ++ "2" ++ col_name ++ ".md")
      title notes row_name row_range col_name col_range func none
    pure [d]
  | [(first_name, first_range), (row_name, row_range), (col_name, col_range)] =>
    genLoop (fun first_val =>
      write_table_file (output_dir ++ "/" ++ first_name ++ "_" ++ pad3 first_val ++ ".md")
        (title ++ ": " ++ first_name ++ " = " ++ toString first_val) notes
        row_name row_range col_name col_range func (some (first_val, first_name)))
      first_range
  | _ =>
    Except.error ("Unsupported number of dimensions: " ++ toString ranges_data.length)

/-- Predicate that `sub` occurs verbatim (as a contiguous substring) in `hay`. -/
def containsText (hay sub : String) : Prop :=
  ∃ p q, hay.data = p ++ (sub.data ++ q)

/-! ### `parse_dart_function` and `create_function` (source lines 16–87) -/

/-- Index of the last occurrence of a character satisfying `p`
(Python `str.rfind`). -/
def rfindIdx (p : Char → Bool) (cs : List Char) : Option Nat :=
  match List.findIdx? p cs.reverse with
  | none => none
  | some i => some (cs.length - 1 - i)

/-- Python `str.replace(pat, rep)` (all occurrences, left to right,
non-overlapping); `fuel` bounds the scan and is instantiated with the
input length, which suffices because every step consumes at least one
character. -/
def replaceAll (pat rep : List Char) : Nat → List Char → List Char
  | 0, l => l
  | fuel + 1, l =>
    match l with
    | [] => []
    | c :: rest =>
      if !pat.isEmpty && pat.isPrefixOf l then
        rep ++ replaceAll pat rep fuel (l.drop pat.length)
      else c :: replaceAll pat rep fuel rest

/-- Python substring membership (`pat in s`): some tail of the list
starts with `pat`. -/
def containsSeq (pat : List Char) : List Char → Bool
  | [] => pat.isEmpty
  | c :: rest => pat.isPrefixOf (c :: rest) || containsSeq pat rest

/-- Python `str.rstrip(';')`: drop all trailing semicolons. -/
def rstripSemis (cs : List Char) : List Char :=
  (cs.reverse.dropWhile (fun c => c == ';')).reverse

/-- Python `re.sub(r"input\[(\d+)\]", r"args[\1]", s)`: scan left to
right; at each position, an occurrence of `input[` followed by one or
more digits and `]` is rewritten with `input` replaced by `args`. -/
def subInput : Nat → List Char → List Char
  | 0, l => l
  | fuel + 1, l =>
    match l with
    | [] => []
    | c :: rest =>
      if ("input[").data.isPrefixOf l then
        let afterBr := l.drop 6
        let ds := afterBr.takeWhile Char.isDigit
        if ds.isEmpty then c :: subInput fuel rest
        else
          match afterBr.drop ds.length with
          | ']' :: rest2 => "args[".data ++ ds ++ ']' :: subInput fuel rest2
          | _ => c :: subInput fuel rest
      else c :: subInput fuel rest

/-- Model of `parse_dart_function`: read the file, locate the function body between
the first `\x7b` and the last `\x7d`, take the first line containing
`return`, strip the keyword and the trailing semicolons, rewrite
`input[n]` accesses to `args[n]`, and emit the Python lambda text.  Errors
raised inside the `try` are re-wrapped with the
`Error parsing Dart function` message; a missing file re-raises
`FileNotFoundError`. -/
def parse_dart_function (fs : String → Option String) (file_path : String) :
    Except String String :=
  match fs file_path with
  | none => Except.error ("Dart function file not found: " ++ file_path)
  | some content =>
    let cs := content.data
    match List.findIdx? (fun c => c == '{') cs, rfindIdx (fun c => c == '}') cs with
    | some body_start, some body_end =>
      let function_body := stripList ((cs.drop (body_start + 1)).take (body_end - (body_start + 1)))
      let lines := splitOnChar '\n' function_body
      match lines.find? (fun l => containsSeq ("return").data l) with
      | none =>
        Except.error ("Error parsing Dart function from " ++ file_path ++
          ": Could not find return statement in " ++ file_path)
      | some line =>
        let return_line := stripList line
        let formula :=
          rstripSemis (stripList (replaceAll ("return").data [] return_line.length return_line))
        let formula2 := subInput formula.length formula
        Except.ok ("lambda args: " ++ String.mk formula2)
    | _, _ =>
      Except.error ("Error parsing Dart function from " ++ file_path ++
        ": Could not find function body in " ++ file_path)

/-- Abstract syntax of the arithmetic fragment (integer literals, `args`
subscripts, `+`, `*`) that the emitted Python lambda bodies consist of. -/
inductive PyExpr where
  | num : Nat → PyExpr
  | arg : Nat → PyExpr
  | add : PyExpr → PyExpr → PyExpr
  | mul : PyExpr → PyExpr → PyExpr
  deriving Repr, DecidableEq

/-- Evaluation of the fragment under Python semantics: `args[i]` raises
`IndexError` (here `none`) when out of range. -/
def pyDenote : PyExpr → List Int → Option Int
  | PyExpr.num n, _ => some (n : Int)
  | PyExpr.arg i, args => args[i]?
  | PyExpr.add a b, args =>
    match pyDenote a args, pyDenote b args with
    | some x, some y => some (x + y)
    | _, _ => none
  | PyExpr.mul a b, args =>
    match pyDenote a args, pyDenote b args with
    | some x, some y => some (x * y)
    | _, _ => none

/-- Skip spaces. -/
def skipWs (l : List Char) : List Char := l.dropWhile (fun c => c == ' ')

/-- Parse a decimal numeral. -/
def parseNatTok (l : List Char) : Option (Nat × List Char) :=
  let ds := l.takeWhile Char.isDigit
  if ds.isEmpty then none
  else some (ds.foldl (fun a c => a * 10 + (c.toNat - 48)) 0, l.drop ds.length)

/-- Parse an atom: an `args[i]` subscript or an integer literal. -/
def parseAtom (l : List Char) : Option (PyExpr × List Char) :=
  let l := skipWs l
  if ("args[").data.isPrefixOf l then
    match parseNatTok (l.drop 5) with
    | some (n, rest) =>
      match skipWs rest with
      | ']' :: rest2 => some (PyExpr.arg n, rest2)
      | _ => none
    | none => none
  else
    match parseNatTok l with
    | some (n, rest) => some (PyExpr.num n, rest)
    | none => none

/-- Left-associative chain of `*` after a first atom. -/
def parseTermAux : Nat → PyExpr → List Char → Option (PyExpr × List Char)
  | 0, acc, l => some (acc, l)
  | fuel + 1, acc, l =>
    match skipWs l with
    | '*' :: rest =>
      match parseAtom rest with
      | some (a, rest2) => parseTermAux fuel (PyExpr.mul acc a) rest2
      | none => none
    | _ => some (acc, l)

/-- Parse a multiplicative term. -/
def parseTerm (fuel : Nat) (l : List Char) : Option (PyExpr × List Char) :=
  match parseAtom l with
  | some (a, rest) => parseTermAux fuel a rest
  | none => none

/-- Left-associative chain of `+` after a first term. -/
def parseExprAux : Nat → PyExpr → List Char → Option (PyExpr × List Char)
  | 0, acc, l => some (acc, l)
  | fuel + 1, acc, l =>
    match skipWs l with
    | '+' :: rest =>
      match parseTerm fuel rest with
      | some (t, rest2) => parseExprAux fuel (PyExpr.add acc t) rest2
      | none => none
    | _ => some (acc, l)

/-- Parse an additive expression. -/
def parseExpr (fuel : Nat) (l : List Char) : Option (PyExpr × List Char) :=
  match parseTerm fuel l with
  | some (t, rest) => parseExprAux fuel t rest
  | none => none

/-- Python `eval` restricted to the lambda fragment the pipeline emits:
a text `lambda args: <expr>` with `<expr>` in the arithmetic fragment
evaluates to the function taking the argument list to the value of the
expression. -/
def evalPyLambda (src : String) : Option (List Int → Option Int) :=
  let cs := src.data
  if ("lambda args:").data.isPrefixOf cs then
    match parseExpr cs.length (cs.drop 12) with
    | some (e, rest) => if (skipWs rest).isEmpty then some (pyDenote e) else none
    | none => none
  else none

/-- Model of `create_function`: strip the input; a `.dart` path goes through
`parse_dart_function` and the resulting lambda text is evaluated;
otherwise the input itself is evaluated as Python code (modelled for the
lambda fragment). -/
def create_function (fs : String → Option String) (func_input : String) :
    Except String (List Int → Option Int) :=
  let fi := pyStrip func_input
  if endswith fi (".dart") then
    match parse_dart_function fs fi with
    | Except.error e => Except.error e
    | Except.ok python_function_str =>
      match evalPyLambda python_function_str with
      | some f => Except.ok f
      | none => Except.error ("Error evaluating parsed Dart function: invalid syntax")
  else
    match evalPyLambda fi with
    | some f => Except.ok f
    | none => Except.error ("Error creating function from Python code: unsupported form")

/-- The Dart file contents of the C8 scenario. -/
def dartContent : String := "\x7b return input[0] + input[1] * 2; \x7d"

/-- A one-file file system holding the C8 Dart file. -/
def dartFs : String → Option String :=
  fun p => if p = "model.dart" then some dartContent else none

/-- Modelled from the spec: the reference function
`f(args) = args[0] + args[1] * 2` that the loaded callable must be
extensionally equal to. -/
def dartSpecFun (args : List Int) : Option Int := do
  let a ← args[0]?
  let b ← args[1]?
  pure (a + b * 2)


/-! ### Properties of the range iteration -/

theorem getLast?_cons_of_ne_nil {α : Type _} (a : α) {l : List α} (h : l ≠ []) :
    (a :: l).getLast? = l.getLast? := by
  cases l with
  | nil => exact absurd rfl h
  | cons x xs => exact List.getLast?_cons_cons

theorem upAux_eq_nil (fuel : Nat) (cur stop step : Int) (h : ¬ cur < stop) :
    upAux fuel cur stop step = [] := by
  cases fuel with
  | zero => rfl
  | succ f => simp [upAux, h]

theorem upAux_ne_nil (fuel : Nat) (cur stop step : Int) (hf : 0 < fuel) (h : cur < stop) :
    upAux fuel cur stop step ≠ [] := by
  cases fuel with
  | zero => omega
  | succ f => simp [upAux, h]

theorem upAux_head (fuel : Nat) (cur stop step : Int)
    (h : upAux fuel cur stop step ≠ []) :
    (upAux fuel cur stop step).head? = some cur := by
  cases fuel with
  | zero => simp [upAux] at h
  | succ f =>
    by_cases hc : cur < stop
    · simp [upAux, hc]
    · simp [upAux, hc] at h

theorem upAux_chain (step : Int) :
    ∀ (fuel : Nat) (cur stop : Int),
      List.Chain' (fun a b => b - a = step) (upAux fuel cur stop step) := by
  intro fuel
  induction fuel with
  | zero => intro cur stop; simp [upAux]
  | succ f ih =>
    intro cur stop
    by_cases hc : cur < stop
    · simp only [upAux, if_pos hc]
      rw [List.chain'_cons']
      refine ⟨?_, ih (cur + step) stop⟩
      intro y hy
      rcases em (upAux f (cur + step) stop step = []) with he | he
      · rw [he] at hy; simp at hy
      · rw [upAux_head f _ _ _ he] at hy
        simp at hy; omega
    · simp [upAux, hc]

theorem upAux_last (step : Int) (hs : 0 < step) :
    ∀ (fuel : Nat) (cur stop : Int), (stop - cur).toNat ≤ fuel → cur < stop →
      ∃ L, (upAux fuel cur stop step).getLast? = some L ∧
        (∃ k : Nat, L = cur + k * step) ∧ stop - step ≤ L ∧ L < stop := by
  intro fuel
  induction fuel with
  | zero => intro cur stop hsuf hc; omega
  | succ f ih =>
    intro cur stop hsuf hc
    simp only [upAux, if_pos hc]
    by_cases hc2 : cur + step < stop
    · obtain ⟨L, hL, ⟨k, hk⟩, hb1, hb2⟩ := ih (cur + step) stop (by omega) hc2
      refine ⟨L, ?_, ⟨k + 1, by rw [hk]; push_cast; ring⟩, hb1, hb2⟩
      have hne : upAux f (cur + step) stop step ≠ [] := by
        intro h0; rw [h0] at hL; simp at hL
      rw [getLast?_cons_of_ne_nil _ hne]; exact hL
    · rw [upAux_eq_nil f _ _ _ hc2]
      exact ⟨cur, rfl, ⟨0, by simp⟩, by omega, hc⟩

theorem downAux_eq_nil (fuel : Nat) (cur stop step : Int) (h : ¬ stop < cur) :
    downAux fuel cur stop step = [] := by
  cases fuel with
  | zero => rfl
  | succ f => simp [downAux, h]

theorem downAux_ne_nil (fuel : Nat) (cur stop step : Int) (hf : 0 < fuel) (h : stop < cur) :
    downAux fuel cur stop step ≠ [] := by
  cases fuel with
  | zero => omega
  | succ f => simp [downAux, h]

theorem downAux_head (fuel : Nat) (cur stop step : Int)
    (h : downAux fuel cur stop step ≠ []) :
    (downAux fuel cur stop step).head? = some cur := by
  cases fuel with
  | zero => simp [downAux] at h
  | succ f =>
    by_cases hc : stop < cur
    · simp [downAux, hc]
    · simp [downAux, hc] at h

theorem downAux_chain (step : Int) :
    ∀ (fuel : Nat) (cur stop : Int),
      List.Chain' (fun a b => b - a = step) (downAux fuel cur stop step) := by
  intro fuel
  induction fuel with
  | zero => intro cur stop; simp [downAux]
  | succ f ih =>
    intro cur stop
    by_cases hc : stop < cur
    · simp only [downAux, if_pos hc]
      rw [List.chain'_cons']
      refine ⟨?_, ih (cur + step) stop⟩
      intro y hy
      rcases em (downAux f (cur + step) stop step = []) with he | he
      · rw [he] at hy; simp at hy
      · rw [downAux_head f _ _ _ he] at hy
        simp at hy; omega
    · simp [downAux, hc]

theorem downAux_last (step : Int) (hs : step < 0) :
    ∀ (fuel : Nat) (cur stop : Int), (cur - stop).toNat ≤ fuel → stop < cur →
      ∃ L, (downAux fuel cur stop step).getLast? = some L ∧
        (∃ k : Nat, L = cur + k * step) ∧ stop < L ∧ L ≤ stop - step := by
  intro fuel
  induction fuel with
  | zero => intro cur stop hsuf hc; omega
  | succ f ih =>
    intro cur stop hsuf hc
    simp only [downAux, if_pos hc]
    by_cases hc2 : stop < cur + step
    · obtain ⟨L, hL, ⟨k, hk⟩, hb1, hb2⟩ := ih (cur + step) stop (by omega) hc2
      refine ⟨L, ?_, ⟨k + 1, by rw [hk]; push_cast; ring⟩, hb1, hb2⟩
      have hne : downAux f (cur + step) stop step ≠ [] := by
        intro h0; rw [h0] at hL; simp at hL
      rw [getLast?_cons_of_ne_nil _ hne]; exact hL
    · rw [downAux_eq_nil f _ _ _ hc2]
      exact ⟨cur, rfl, ⟨0, by simp⟩, hc, by omega⟩

theorem mkRange_ok (start stop step : Int) (vs : List Int)
    (h : mkRange start stop step = Except.ok vs) :
    step ≠ 0 ∧ vs = pyRange start (stop + step) step := by
  unfold mkRange at h
  by_cases hz : step = 0
  · rw [if_pos hz] at h; exact Except.noConfusion h
  · rw [if_neg hz] at h
    injection h with h'
    exact ⟨hz, h'.symm⟩

/-! ### Claims C1–C3 -/

/-- C1 counterexample: for the valid descriptor `x:1:4:2` (nonzero step),
the parser produces `[1, 3, 5]`: the last element `5` is not the greatest
value reachable from `1` by multiples of `2` that does not exceed the stop
value `4` — it exceeds the stop value. -/
theorem c1_counterexample :
    parse_range_spec ("x:1:4:2") = Except.ok ("x", [1, 3, 5]) ∧
    ([1, 3, 5] : List Int).getLast? = some 5 ∧ ¬ ((5 : Int) ≤ 4) :=
  ⟨rfl, rfl, by omega⟩

/-- C1 (amended): for every range built by the parser from
`(start, stop, step)` with the produced sequence non-empty, the first
element equals `start`, consecutive elements differ by exactly `step`, and
the last element is the unique value reachable from `start` by whole
multiples of `step` lying in the half-open interval `[stop, stop + step)`
for positive step (resp. `(stop + step, stop]` for negative step) — so it
equals `stop` exactly when `stop - start` is a multiple of `step`, and
otherwise overshoots `stop`. -/
theorem c1_amended (start stop step : Int) (vs : List Int)
    (h : mkRange start stop step = Except.ok vs) (hne : vs ≠ []) :
    vs.head? = some start ∧
    List.Chain' (fun a b => b - a = step) vs ∧
    ∃ L, vs.getLast? = some L ∧ (∃ k : Nat, L = start + k * step) ∧
      (0 < step → stop ≤ L ∧ L < stop + step) ∧
      (step < 0 → stop + step < L ∧ L ≤ stop) := by
  obtain ⟨hz, hvs⟩ := mkRange_ok start stop step vs h
  rcases lt_trichotomy step 0 with hneg | h0 | hpos
  · have hvs' : vs = downAux (start - (stop + step)).toNat start (stop + step) step := by
      rw [hvs]; unfold pyRange
      rw [if_neg (by omega), if_pos hneg]
    have hcond : stop + step < start := by
      by_contra hcon
      exact hne (hvs' ▸ downAux_eq_nil _ _ _ _ hcon)
    obtain ⟨L, hL, hk, hb1, hb2⟩ :=
      downAux_last step hneg _ start (stop + step) (le_refl _) hcond
    refine ⟨?_, ?_, L, hvs' ▸ hL, hk, by omega, fun _ => ⟨hb1, by omega⟩⟩
    · rw [hvs']; exact downAux_head _ _ _ _ (hvs' ▸ hne)
    · rw [hvs']; exact downAux_chain step _ _ _
  · exact absurd h0 hz
  · have hvs' : vs = upAux ((stop + step) - start).toNat start (stop + step) step := by
      rw [hvs]; unfold pyRange
      rw [if_pos hpos]
    have hcond : start < stop + step := by
      by_contra hcon
      exact hne (hvs' ▸ upAux_eq_nil _ _ _ _ hcon)
    obtain ⟨L, hL, hk, hb1, hb2⟩ :=
      upAux_last step hpos _ start (stop + step) (le_refl _) hcond
    refine ⟨?_, ?_, L, hvs' ▸ hL, hk, fun _ => ⟨by omega, hb2⟩, by omega⟩
    · rw [hvs']; exact upAux_head _ _ _ _ (hvs' ▸ hne)
    · rw [hvs']; exact upAux_chain step _ _ _

/-- C1 (amended) witness at `(start, stop, step) = (1, 5, 2)`. -/
theorem c1_amended_witness :
    ([1, 3, 5] : List Int).head? = some 1 ∧
    List.Chain' (fun a b => b - a = 2) ([1, 3, 5] : List Int) ∧
    ∃ L, ([1, 3, 5] : List Int).getLast? = some L ∧
      (∃ k : Nat, L = 1 + k * 2) ∧
      ((0 : Int) < 2 → 5 ≤ L ∧ L < 5 + 2) ∧
      ((2 : Int) < 0 → 5 + 2 < L ∧ L ≤ 5) :=
  c1_amended 1 5 2 [1, 3, 5] rfl (by simp)

/-- C2 counterexample: the parser accepts the descriptor `e:5:1:1`, but
the returned value sequence is empty. -/
theorem c2_counterexample :
    parse_range_spec ("e:5:1:1") = Except.ok ("e", ([] : List Int)) ∧
    (([] : List Int)).isEmpty = true :=
  ⟨rfl, rfl⟩

/-- C2 (amended): every value sequence built by the parser is strictly
monotonic in the direction of the step sign, and it is non-empty whenever
`start ≤ stop` for positive step (resp. `stop ≤ start` for negative step);
for a start value strictly past the stop boundary it can be empty.
Immutability holds trivially in the embedding (the sequence is a pure
value, and Python `range` objects are immutable). -/
theorem c2_amended (start stop step : Int) (vs : List Int)
    (h : mkRange start stop step = Except.ok vs) :
    (0 < step → List.Pairwise (fun a b => a < b) vs ∧ (start ≤ stop → vs ≠ [])) ∧
    (step < 0 → List.Pairwise (fun a b => b < a) vs ∧ (stop ≤ start → vs ≠ [])) := by
  obtain ⟨hz, hvs⟩ := mkRange_ok start stop step vs h
  constructor
  · intro hpos
    have hvs' : vs = upAux ((stop + step) - start).toNat start (stop + step) step := by
      rw [hvs]; unfold pyRange; rw [if_pos hpos]
    constructor
    · rw [hvs', ← List.chain'_iff_pairwise]
      exact (upAux_chain step _ _ _).imp (fun a b hd => by omega)
    · intro hle
      rw [hvs']
      exact upAux_ne_nil _ _ _ _ (by omega) (by omega)
  · intro hneg
    have hvs' : vs = downAux (start - (stop + step)).toNat start (stop + step) step := by
      rw [hvs]; unfold pyRange; rw [if_neg (by omega), if_pos hneg]
    constructor
    · rw [hvs', ← List.chain'_iff_pairwise]
      exact (downAux_chain step _ _ _).imp (fun a b hd => by omega)
    · intro hle
      rw [hvs']
      exact downAux_ne_nil _ _ _ _ (by omega) (by omega)

/-- C2 (amended) witness at `(start, stop, step) = (1, 3, 1)`. -/
theorem c2_amended_witness :
    ((0 : Int) < 1 → List.Pairwise (fun a b => a < b) ([1, 2, 3] : List Int) ∧
      ((1 : Int) ≤ 3 → ([1, 2, 3] : List Int) ≠ [])) ∧
    ((1 : Int) < 0 → List.Pairwise (fun a b => b < a) ([1, 2, 3] : List Int) ∧
      ((3 : Int) ≤ 1 → ([1, 2, 3] : List Int) ≠ [])) :=
  c2_amended 1 3 1 [1, 2, 3] rfl

/-- C3 counterexample: for the descriptor `x:1:5:0` with integer-literal
fields and zero step, the parser does not succeed: the zero-step
`ValueError` raised by the `range` constructor is caught inside
`parse_range_spec` and re-raised at parse time. -/
theorem c3_counterexample :
    parse_range_spec ("x:1:5:0") =
      Except.error
        ("Invalid numeric values in range spec 'x:1:5:0': range() arg 3 must not be zero") :=
  rfl

/-- C3 (amended): the parser rejects a zero step eagerly: for every
descriptor splitting into exactly four fields whose step field parses as
the integer `0`, `parse_range_spec` raises an error at parse time (the
zero-step error from the `range` constructor, re-wrapped in the
`Invalid numeric values` message), rather than surfacing it at iteration
time. -/
theorem c3_amended (spec : String)
    (h4 : (splitOnChar ':' spec.data).length = 4)
    (hz : pyInt ((splitOnChar ':' spec.data).getD 3 []) = some 0) :
    ∃ e, parse_range_spec spec = Except.error e := by
  unfold parse_range_spec
  rw [if_neg (by omega)]
  have hz' : pyInt ((splitOnChar ':' spec.data)[3]?.getD []) = some 0 := by
    simpa [List.getD] using hz
  rcases hp1 : pyInt ((splitOnChar ':' spec.data).getD 1 []) with _ | s1 <;>
    rcases hp2 : pyInt ((splitOnChar ':' spec.data).getD 2 []) with _ | s2 <;>
    simp [List.getD, hp1, hp2, hz', mkRange]

/-- C3 (amended) witness at the descriptor `x:1:5:0`. -/
theorem c3_amended_witness :
    ∃ e, parse_range_spec ("x:1:5:0") = Except.error e :=
  c3_amended ("x:1:5:0") (by decide) (by decide)

/-! ### Properties of the renderer -/

theorem containsText_mono_left (A t sub : String) (h : containsText t sub) :
    containsText (A ++ t) sub := by
  obtain ⟨p, q, hpq⟩ := h
  exact ⟨A.data ++ p, q, by rw [String.data_append, hpq, List.append_assoc]⟩

theorem containsText_mono_right (t B sub : String) (h : containsText t sub) :
    containsText (t ++ B) sub := by
  obtain ⟨p, q, hpq⟩ := h
  refine ⟨p, q ++ B.data, ?_⟩
  rw [String.data_append, hpq]
  simp [List.append_assoc]

theorem containsText_self_left (s B : String) : containsText (s ++ B) s :=
  ⟨[], B.data, by rw [String.data_append]; rfl⟩

/-- Success shape of `_write_table_file` when both dimension names are
non-empty. -/
theorem write_table_file_eq (filename title notes : String) (r0 : Char) (rs : List Char)
    (row_name : String) (R : List Int) (c0 : Char) (cs : List Char) (col_name : String)
    (C : List Int) (func : List Int → Except String String) (first : Option (Int × String))
    (hrn : row_name.data = r0 :: rs) (hcn : col_name.data = c0 :: cs) :
    write_table_file filename title notes row_name R col_name C func first =
      Except.ok
        { filename := filename
          title := title
          notes := notes
          headerLabel := "| ↓" ++ String.mk [r0] ++ ", " ++ String.mk [c0] ++ "→ |"
          colVals := C
          rows := R.map (fun r => (r, C.map (fun c => cellText func (mkArgs first r c))))
          warnings := R.flatMap (fun r =>
            C.flatMap (fun c => cellWarn func first row_name col_name r c)) } := by
  unfold write_table_file
  rw [hrn, hcn]

/-- Whatever the inputs, a successful `_write_table_file` carries the given
notes text unchanged. -/
theorem write_table_file_notes (filename title notes row_name : String) (R : List Int)
    (col_name : String) (C : List Int) (func : List Int → Except String String)
    (first : Option (Int × String)) (d : TableDoc)
    (h : write_table_file filename title notes row_name R col_name C func first =
      Except.ok d) :
    d.notes = notes := by
  unfold write_table_file at h
  split at h
  · exact Except.noConfusion h
  · split at h
    · exact Except.noConfusion h
    · injection h with h'
      rw [← h']

/-- The sequential loop succeeds pointwise: if each outer value yields a
document, the loop yields the corresponding document list. -/
theorem genLoop_ok (writeOne : Int → Except String TableDoc) (g : Int → TableDoc)
    (l : List Int) (h : ∀ v ∈ l, writeOne v = Except.ok (g v)) :
    genLoop writeOne l = Except.ok (l.map g) := by
  induction l with
  | nil => rfl
  | cons v vs ih =>
    have hv := h v (List.mem_cons_self v vs)
    have hrest := ih (fun w hw => h w (List.mem_cons_of_mem v hw))
    simp only [genLoop, List.map, hv, hrest, bind, Except.bind, pure, Except.pure]

/-- Every document produced by the loop was produced by one outer value. -/
theorem genLoop_mem (writeOne : Int → Except String TableDoc) (l : List Int)
    (docs : List TableDoc) (h : genLoop writeOne l = Except.ok docs)
    (d : TableDoc) (hd : d ∈ docs) : ∃ v ∈ l, writeOne v = Except.ok d := by
  induction l generalizing docs with
  | nil =>
    injection h with h'
    rw [← h'] at hd
    exact absurd hd (by simp)
  | cons v vs ih =>
    simp only [genLoop, bind, Except.bind] at h
    cases hw : writeOne v with
    | error e => rw [hw] at h; exact Except.noConfusion h
    | ok d0 =>
      rw [hw] at h
      cases hrest : genLoop writeOne vs with
      | error e => rw [hrest] at h; exact Except.noConfusion h
      | ok ds =>
        rw [hrest] at h
        injection h with h'
        rw [← h'] at hd
        rcases List.mem_cons.mp hd with hd0 | hds
        · exact ⟨v, List.mem_cons_self v vs, hd0 ▸ hw⟩
        · obtain ⟨w, hw', hwd⟩ := ih ds hrest hds
          exact ⟨w, List.mem_cons_of_mem v hw', hwd⟩

/-- Every document of a successful `generate_tables` run carries the given
notes text unchanged. -/
theorem generate_tables_notes (output_dir title : String)
    (rd : List (String × List Int)) (func : List Int → Except String String)
    (notes : String) (docs : List TableDoc)
    (h : generate_tables output_dir title rd func notes = Except.ok docs)
    (d : TableDoc) (hd : d ∈ docs) : d.notes = notes := by
  unfold generate_tables at h
  split at h
  · rename_i row_name row_range col_name col_range
    simp only [bind, Except.bind] at h
    cases hw : write_table_file (output_dir ++ "/" ++ row_name ++ "2" ++ col_name ++ ".md")
        title notes row_name row_range col_name col_range func none with
    | error e => rw [hw] at h; exact Except.noConfusion h
    | ok d0 =>
      rw [hw] at h
      injection h with h'
      rw [← h'] at hd
      rcases List.mem_cons.mp hd with hd0 | hds
      · exact hd0 ▸ write_table_file_notes _ _ _ _ _ _ _ _ _ _ hw
      · exact absurd hds (by simp)
  · rename_i first_name first_range row_name row_range col_name col_range
    obtain ⟨v, _, hv⟩ := genLoop_mem _ _ _ h d hd
    exact write_table_file_notes _ _ _ _ _ _ _ _ _ _ hv
  · exact Except.noConfusion h

/-- Non-empty notes appear verbatim in the rendered file text of any
document carrying them. -/
theorem render_contains_notes (d : TableDoc) (h : d.notes ≠ "") :
    containsText (render d) d.notes := by
  unfold render
  rw [if_neg h]
  apply containsText_mono_right
  apply containsText_mono_right
  apply containsText_mono_right
  apply containsText_mono_right
  apply containsText_mono_right
  apply containsText_mono_right
  apply containsText_mono_right
  apply containsText_mono_right
  apply containsText_mono_right
  apply containsText_mono_left
  exact containsText_self_left _ _

/-! ### Claims C4–C6, C9, C10 -/

/-- C4: for a 2-dimension request with non-empty dimension names (required
by the header construction, see C10) and a function succeeding on every
cell, the single document has exactly `|R|` data rows in the order of `R`,
each with exactly `|C|` cells in the order of `C`, the cell for `(r, c)`
holding the value of `function([r, c])`. -/
theorem c4_two_dim_grid (output_dir title row_name col_name : String)
    (R C : List Int) (func : List Int → Except String String)
    (v : List Int → String) (notes : String)
    (hr : row_name.data ≠ []) (hc : col_name.data ≠ [])
    (hfv : ∀ r ∈ R, ∀ c ∈ C, func [r, c] = Except.ok (v [r, c])) :
    ∃ d, generate_tables output_dir title [(row_name, R), (col_name, C)] func notes =
        Except.ok [d] ∧
      d.rows.length = R.length ∧
      (∀ p ∈ d.rows, p.2.length = C.length) ∧
      d.rows = R.map (fun r => (r, C.map (fun c => v [r, c]))) := by
  rcases hrn : row_name.data with _ | ⟨r0, rs⟩
  · exact absurd hrn hr
  rcases hcn : col_name.data with _ | ⟨c0, cs⟩
  · exact absurd hcn hc
  have hw := write_table_file_eq (output_dir ++ "/" ++ row_name ++ "2" ++ col_name ++ ".md")
    title notes r0 rs row_name R c0 cs col_name C func none hrn hcn
  have hrows : (R.map (fun r => (r, C.map (fun c => cellText func (mkArgs none r c))))) =
      R.map (fun r => (r, C.map (fun c => v [r, c]))) := by
    apply List.map_congr_left
    intro r hrR
    refine congrArg (Prod.mk r) ?_
    apply List.map_congr_left
    intro c hcC
    show cellText func [r, c] = v [r, c]
    rw [cellText, hfv r hrR c hcC]
  refine ⟨{ filename := output_dir ++ "/" ++ row_name ++ "2" ++ col_name ++ ".md"
            title := title
            notes := notes
            headerLabel := "| ↓" ++ String.mk [r0] ++ ", " ++ String.mk [c0] ++ "→ |"
            colVals := C
            rows := R.map (fun r => (r, C.map (fun c => cellText func (mkArgs none r c))))
            warnings := R.flatMap (fun r =>
              C.flatMap (fun c => cellWarn func none row_name col_name r c)) },
    ?_, ?_, ?_, ?_⟩
  · simp only [generate_tables, bind, Except.bind, hw, pure, Except.pure]
  · simp
  · intro p hp
    simp only [List.mem_map] at hp
    obtain ⟨r, _, hpr⟩ := hp
    rw [← hpr]
    simp
  · exact hrows

/-- C4 witness: a 1×1 grid with a total function. -/
theorem c4_two_dim_grid_witness :
    ∃ d, generate_tables ("out") "T" [("x", [2]), ("y", [3])]
        (fun _ => Except.ok ("6")) "" = Except.ok [d] ∧
      d.rows.length = ([2] : List Int).length ∧
      (∀ p ∈ d.rows, p.2.length = ([3] : List Int).length) ∧
      d.rows = ([2] : List Int).map (fun r =>
        (r, ([3] : List Int).map (fun c => (fun _ => "6") [r, c]))) :=
  c4_two_dim_grid ("out") "T" "x" "y" [2] [3] (fun _ => Except.ok ("6")) (fun _ => "6") ""
    (by simp) (by simp) (fun r _ c _ => rfl)

/-- C5: with non-empty row/column names, a 3-dimension request over outer
range `O` produces exactly `|O|` documents, one per outer value `o`, named
`<outer-name>_<o zero-padded to 3>.md`, with `o` embedded in the title and
every cell valued at `function([o, row, col])`; a 2-dimension request
produces the single file `<row-name>2<col-name>.md`. -/
theorem c5_three_dim_documents (output_dir title first_name row_name col_name : String)
    (O R C : List Int) (func : List Int → Except String String) (notes : String)
    (hr : row_name.data ≠ []) (hc : col_name.data ≠ []) :
    (∃ docs, generate_tables output_dir title
        [(first_name, O), (row_name, R), (col_name, C)] func notes = Except.ok docs ∧
      docs.length = O.length ∧
      docs.map TableDoc.filename =
        O.map (fun o => output_dir ++ "/" ++ first_name ++ "_" ++ pad3 o ++ ".md") ∧
      docs.map TableDoc.title =
        O.map (fun o => title ++ ": " ++ first_name ++ " = " ++ toString o) ∧
      docs.map TableDoc.rows =
        O.map (fun o => R.map (fun r => (r, C.map (fun c => cellText func [o, r, c]))))) ∧
    (∃ d, generate_tables output_dir title [(row_name, R), (col_name, C)] func notes =
        Except.ok [d] ∧
      d.filename = output_dir ++ "/" ++ row_name ++ "2" ++ col_name ++ ".md") := by
  rcases hrn : row_name.data with _ | ⟨r0, rs⟩
  · exact absurd hrn hr
  rcases hcn : col_name.data with _ | ⟨c0, cs⟩
  · exact absurd hcn hc
  constructor
  · refine ⟨O.map (fun o =>
      { filename := output_dir ++ "/" ++ first_name ++ "_" ++ pad3 o ++ ".md"
        title := title ++ ": " ++ first_name ++ " = " ++ toString o
        notes := notes
        headerLabel := "| ↓" ++ String.mk [r0] ++ ", " ++ String.mk [c0] ++ "→ |"
        colVals := C
        rows := R.map (fun r =>
          (r, C.map (fun c => cellText func (mkArgs (some (o, first_name)) r c))))
        warnings := R.flatMap (fun r => C.flatMap (fun c =>
          cellWarn func (some (o, first_name)) row_name col_name r c)) }), ?_, ?_, ?_, ?_, ?_⟩
    · simp only [generate_tables]
      apply genLoop_ok
      intro o _
      exact write_table_file_eq _ _ _ r0 rs row_name R c0 cs col_name C func
        (some (o, first_name)) hrn hcn
    · simp
    · rw [List.map_map]; rfl
    · rw [List.map_map]; rfl
    · rw [List.map_map]; rfl
  · have hw := write_table_file_eq
      (output_dir ++ "/" ++ row_name ++ "2" ++ col_name ++ ".md")
      title notes r0 rs row_name R c0 cs col_name C func none hrn hcn
    refine ⟨{ filename := output_dir ++ "/" ++ row_name ++ "2" ++ col_name ++ ".md"
              title := title
              notes := notes
              headerLabel := "| ↓" ++ String.mk [r0] ++ ", " ++ String.mk [c0] ++ "→ |"
              colVals := C
              rows := R.map (fun r => (r, C.map (fun c => cellText func (mkArgs none r c))))
              warnings := R.flatMap (fun r =>
                C.flatMap (fun c => cellWarn func none row_name col_name r c)) },
      ?_, rfl⟩
    simp only [generate_tables, bind, Except.bind, hw, pure, Except.pure]

/-- C5 witness: outer range with two values over a 1×1 inner grid. -/
theorem c5_three_dim_documents_witness :
    (∃ docs, generate_tables ("out") "T" [("a", [1, 2]), ("x", [5]), ("y", [7])]
        (fun _ => Except.ok ("0")) "" = Except.ok docs ∧
      docs.length = ([1, 2] : List Int).length ∧
      docs.map TableDoc.filename =
        ([1, 2] : List Int).map (fun o => "out" ++ "/" ++ "a" ++ "_" ++ pad3 o ++ ".md") ∧
      docs.map TableDoc.title =
        ([1, 2] : List Int).map (fun o => "T" ++ ": " ++ "a" ++ " = " ++ toString o) ∧
      docs.map TableDoc.rows =
        ([1, 2] : List Int).map (fun o => ([5] : List Int).map (fun r =>
          (r, ([7] : List Int).map (fun c =>
            cellText (fun _ => Except.ok ("0")) [o, r, c]))))) ∧
    (∃ d, generate_tables ("out") "T" [("x", [5]), ("y", [7])]
        (fun _ => Except.ok ("0")) "" = Except.ok [d] ∧
      d.filename = "out" ++ "/" ++ "x" ++ "2" ++ "y" ++ ".md") :=
  c5_three_dim_documents ("out") "T" "a" "x" "y" [1, 2] [5] [7]
    (fun _ => Except.ok ("0")) "" (by simp) (by simp)

/-- C6: if the function fails exactly at the argument combination `args0`,
which corresponds to a grid cell `(r0, c0)`, the document is still
generated (per-cell failure is never fatal), the cell at exactly that
position holds the literal `ERROR` while every other cell holds its normal
value, the emitted warnings contain the diagnostic naming each dimension
with its value, and, in the 3-dimension case, all `|O|` documents are
still produced. -/
theorem c6_cell_error_recovery (filename title notes row_name col_name : String)
    (R C : List Int) (func : List Int → Except String String)
    (first : Option (Int × String)) (v : List Int → String) (e : String)
    (args0 : List Int) (r0 c0 : Int)
    (hr : row_name.data ≠ []) (hc : col_name.data ≠ [])
    (hfail : func args0 = Except.error e)
    (hok : ∀ a, a ≠ args0 → func a = Except.ok (v a))
    (hr0 : r0 ∈ R) (hc0 : c0 ∈ C) (hargs : mkArgs first r0 c0 = args0) :
    (∃ d, write_table_file filename title notes row_name R col_name C func first =
        Except.ok d ∧
      d.rows = R.map (fun r => (r, C.map (fun c =>
        if mkArgs first r c = args0 then ("ERROR") else v (mkArgs first r c)))) ∧
      warnMsg first row_name col_name r0 c0 e ∈ d.warnings) ∧
    (∀ (output_dir title' first_name : String) (O : List Int),
      ∃ docs, generate_tables output_dir title'
          [(first_name, O), (row_name, R), (col_name, C)] func notes = Except.ok docs ∧
        docs.length = O.length) := by
  rcases hrn : row_name.data with _ | ⟨rc, rs⟩
  · exact absurd hrn hr
  rcases hcn : col_name.data with _ | ⟨cc, cs⟩
  · exact absurd hcn hc
  constructor
  · refine ⟨_, write_table_file_eq filename title notes rc rs row_name R cc cs col_name C
      func first hrn hcn, ?_, ?_⟩
    · apply List.map_congr_left
      intro r hrR
      refine congrArg (Prod.mk r) ?_
      apply List.map_congr_left
      intro c hcC
      by_cases hq : mkArgs first r c = args0
      · rw [if_pos hq]
        show cellText func (mkArgs first r c) = "ERROR"
        rw [cellText, hq, hfail]
      · rw [if_neg hq]
        show cellText func (mkArgs first r c) = v (mkArgs first r c)
        rw [cellText, hok _ hq]
    · show warnMsg first row_name col_name r0 c0 e ∈
        R.flatMap (fun r => C.flatMap (fun c => cellWarn func first row_name col_name r c))
      rw [List.mem_flatMap]
      refine ⟨r0, hr0, ?_⟩
      rw [List.mem_flatMap]
      refine ⟨c0, hc0, ?_⟩
      rw [cellWarn, hargs, hfail]
      exact List.mem_singleton.mpr rfl
  · intro output_dir title' first_name O
    refine ⟨O.map (fun o =>
      { filename := output_dir ++ "/" ++ first_name ++ "_" ++ pad3 o ++ ".md"
        title := title' ++ ": " ++ first_name ++ " = " ++ toString o
        notes := notes
        headerLabel := "| ↓" ++ String.mk [rc] ++ ", " ++ String.mk [cc] ++ "→ |"
        colVals := C
        rows := R.map (fun r =>
          (r, C.map (fun c => cellText func (mkArgs (some (o, first_name)) r c))))
        warnings := R.flatMap (fun r => C.flatMap (fun c =>
          cellWarn func (some (o, first_name)) row_name col_name r c)) }), ?_, by simp⟩
    simp only [generate_tables]
    apply genLoop_ok
    intro o _
    exact write_table_file_eq _ _ _ rc rs row_name R cc cs col_name C func
      (some (o, first_name)) hrn hcn

/-- C6 witness: a 2×2 grid whose function fails exactly at `[2, 4]`. -/
theorem c6_cell_error_recovery_witness :
    (∃ d, write_table_file ("f.md") "T" "" "x" [1, 2] "y" [3, 4]
        (fun a => if a = [2, 4] then Except.error ("boom") else Except.ok ("1")) none =
        Except.ok d ∧
      d.rows = ([1, 2] : List Int).map (fun r => (r, ([3, 4] : List Int).map (fun c =>
        if mkArgs none r c = [2, 4] then ("ERROR") else (fun _ => "1") (mkArgs none r c)))) ∧
      warnMsg none ("x") "y" 2 4 ("boom") ∈ d.warnings) ∧
    (∀ (output_dir title' first_name : String) (O : List Int),
      ∃ docs, generate_tables output_dir title'
          [(first_name, O), ("x", [1, 2]), ("y", [3, 4])]
          (fun a => if a = [2, 4] then Except.error ("boom") else Except.ok ("1")) "" =
          Except.ok docs ∧
        docs.length = O.length) :=
  c6_cell_error_recovery ("f.md") "T" "" "x" "y" [1, 2] [3, 4]
    (fun a => if a = [2, 4] then Except.error ("boom") else Except.ok ("1")) none
    (fun _ => "1") "boom" [2, 4] 2 4 (by simp) (by simp) (by simp)
    (fun a ha => by simp [ha]) (by simp) (by simp) rfl

/-- C9: for every list of named ranges whose length is neither 2 nor 3,
`generate_tables` fails with the dimension error; the error is raised by
the final `else` before any table is rendered, so the run produces no
document. -/
theorem c9_dimension_error (output_dir title : String)
    (rd : List (String × List Int)) (func : List Int → Except String String)
    (notes : String) (h2 : rd.length ≠ 2) (h3 : rd.length ≠ 3) :
    generate_tables output_dir title rd func notes =
      Except.error ("Unsupported number of dimensions: " ++ toString rd.length) := by
  rcases rd with _ | ⟨⟨n1, v1⟩, _ | ⟨⟨n2, v2⟩, _ | ⟨⟨n3, v3⟩, _ | ⟨p4, rest⟩⟩⟩⟩
  · rfl
  · rfl
  · exact absurd rfl h2
  · exact absurd rfl h3
  · rfl

/-- C9 witness: the empty range list. -/
theorem c9_dimension_error_witness :
    generate_tables ("out") "T" [] (fun _ => Except.ok ("0")) "" =
      Except.error ("Unsupported number of dimensions: " ++ toString ([] : List (String × List Int)).length) :=
  c9_dimension_error ("out") "T" [] (fun _ => Except.ok ("0")) "" (by simp) (by simp)

/-- C10: the Range Parser accepts the descriptor `:1:5:1` with an empty
name field, and the renderer's header construction, which indexes the
first character of the row name, then fails with the fatal
`string index out of range` indexing error for every input with an empty
row name — an error returned directly, not recovered by the per-cell
sentinel mechanism. -/
theorem c10_empty_name_fatal :
    parse_range_spec (":1:5:1") = Except.ok ("", [1, 2, 3, 4, 5]) ∧
    ∀ (filename title notes : String) (R : List Int) (col_name : String)
      (C : List Int) (func : List Int → Except String String)
      (first : Option (Int × String)),
      write_table_file filename title notes ("") R col_name C func first =
        Except.error ("string index out of range") :=
  ⟨rfl, fun _ _ _ _ _ _ _ _ => rfl⟩

/-! ### Claim C7 -/

/-- C7 counterexample: the input `" x "` does not name a Markdown file,
yet the loader does not return it unchanged: it returns the stripped
string `"x"`. -/
theorem c7_counterexample :
    load_notes (fun _ => none) " x " = Except.ok ("x") ∧ ("x" : String) ≠ " x " :=
  ⟨rfl, by decide⟩

/-- C7 (amended): the loader first strips surrounding whitespace.  If the
stripped string ends in `.md` it returns that file's contents, and fails
with an error naming the (stripped) file name when the file is missing;
otherwise it returns the stripped string.  The loaded notes text, when
non-empty, appears verbatim in the rendered text of every generated
document. -/
theorem c7_notes_loader (fs : String → Option String) (input notes : String)
    (h : load_notes fs input = Except.ok notes) :
    (endswith (pyStrip input) ".md" = false → notes = pyStrip input) ∧
    (endswith (pyStrip input) ".md" = true → fs (pyStrip input) = some notes) ∧
    (∀ (fsm : String → Option String) (p : String),
      endswith (pyStrip p) ".md" = true → fsm (pyStrip p) = none →
      load_notes fsm p = Except.error ("Notes file not found: " ++ pyStrip p)) ∧
    (∀ (output_dir title : String) (rd : List (String × List Int))
      (func : List Int → Except String String) (docs : List TableDoc) (d : TableDoc),
      notes ≠ "" →
      generate_tables output_dir title rd func notes = Except.ok docs → d ∈ docs →
      containsText (render d) notes) := by
  refine ⟨?_, ?_, ?_, ?_⟩
  · intro hmd
    unfold load_notes at h
    rw [if_neg (by simp [hmd])] at h
    injection h with h'
    exact h'.symm
  · intro hmd
    unfold load_notes at h
    rw [if_pos hmd] at h
    cases hfs : fs (pyStrip input) with
    | none => rw [hfs] at h; exact Except.noConfusion h
    | some content =>
      rw [hfs] at h
      injection h with h'
      rw [h']
  · intro fsm p hmd hnone
    unfold load_notes
    rw [if_pos hmd, hnone]
  · intro output_dir title rd func docs d hne hgen hd
    have hnotes := generate_tables_notes output_dir title rd func notes docs hgen d hd
    have := render_contains_notes d (by rw [hnotes]; exact hne)
    rw [hnotes] at this
    exact this

/-- C7 (amended) witness: a notes file `n.md` (with surrounding whitespace
in the argument) resolved through a concrete file system. -/
theorem c7_notes_loader_witness :
    load_notes (fun p => if p = "n.md" then some ("NOTE") else none) " n.md " =
      Except.ok ("NOTE") ∧
    (fun p => if p = "n.md" then some ("NOTE") else none) (pyStrip (" n.md ")) = some ("NOTE") :=
  ⟨rfl, (c7_notes_loader (fun p => if p = "n.md" then some ("NOTE") else none) " n.md " "NOTE"
    rfl).2.1 rfl⟩

/-! ### Claim C8 -/

/-- C8: loading the Dart file whose content is
`\x7b return input[0] + input[1] * 2; \x7d` succeeds — the emitted lambda
text is exactly `lambda args: args[0] + args[1] * 2` — and the resulting
callable applied to `[a, b]` returns `a + b * 2` for every pair of
integers, making it extensionally equal to the reference function on
two-element argument lists. -/
theorem c8_dart_function_equiv :
    parse_dart_function dartFs ("model.dart") =
      Except.ok ("lambda args: args[0] + args[1] * 2") ∧
    ∃ f, create_function dartFs ("model.dart") = Except.ok f ∧
      ∀ a b : Int, f [a, b] = some (a + b * 2) ∧ f [a, b] = dartSpecFun [a, b] :=
  ⟨by rfl, ⟨pyDenote (PyExpr.add (PyExpr.arg 0) (PyExpr.mul (PyExpr.arg 1) (PyExpr.num 2))),
    by rfl, fun a b => ⟨rfl, rfl⟩⟩⟩

end AIaaLT
